import Mathlib

/-!
Verification development for the react-query-lite cache engine.

The definitions below are a shallow embedding of the JavaScript source
(createQuery, createQueryObserver, QueryClient.getQuery).  Pure state
updates become Lean functions on explicit records; the asynchronous
fetch lifecycle is split at its suspension point into the synchronous
call step (qfetch) and the settlement continuation (qsettle); JS timers
become an explicit multiset of pending one-shot tasks with deadlines.
Timestamps and durations are natural numbers of milliseconds; the JS
subtraction in the staleness gate is carried out in Int, mirroring JS
number subtraction.
-/

namespace RQLite

/-- Status field of a query state: the source uses the strings
loading, success and error. -/
inductive Status where
  | loading
  | success
  | error
deriving DecidableEq, Repr

/-- The record stored in query.state in createQuery.  data and error
are undefined until written, lastUpdated is undefined until the first
successful fetch; undefined is modelled as none. -/
structure QueryState (D E : Type) where
  status : Status
  isFetching : Bool
  data : Option D
  error : Option E
  lastUpdated : Option Nat
deriving DecidableEq, Repr

/-- The state of a freshly created query (createQuery, lines 89-94):
status loading, isFetching true, data and error undefined. -/
def initialState : QueryState D E :=
  { status := .loading
    isFetching := true
    data := none
    error := none
    lastUpdated := none }

/-- Fetch start updater (the first setState inside query.fetch):
isFetching set, error cleared, everything else kept. -/
def fetchStart (st : QueryState D E) : QueryState D E :=
  { st with isFetching := true, error := none }

/-- Fetch success updater (the setState in the try branch): status
success, data stored, lastUpdated set to the current time. -/
def fetchSuccess (d : D) (now : Nat) (st : QueryState D E) : QueryState D E :=
  { st with status := .success, data := some d, lastUpdated := some now }

/-- Fetch failure updater (the setState in the catch branch): status
error, the thrown error stored; data and lastUpdated untouched. -/
def fetchFailure (e : E) (st : QueryState D E) : QueryState D E :=
  { st with status := .error, error := some e }

/-- Fetch settle updater (the setState in the finally branch):
isFetching cleared, everything else kept. -/
def fetchSettle (st : QueryState D E) : QueryState D E :=
  { st with isFetching := false }

/-- Outcome of one run of the user-supplied queryFn: Except.ok models a
resolved promise carrying data, Except.error a rejection. -/
abbrev FetchOutcome (D E : Type) := Except E D

/-- The state updater chosen by the try/catch on the queryFn outcome. -/
def applyOutcome (o : FetchOutcome D E) (now : Nat) (st : QueryState D E) :
    QueryState D E :=
  match o with
  | .ok d => fetchSuccess d now st
  | .error e => fetchFailure e st

/-- One complete fetch attempt at the level of QueryState alone:
fetch start, then the try/catch outcome updater, then the finally
settle updater. -/
def runAttempt1 (o : FetchOutcome D E) (now : Nat) (st : QueryState D E) :
    QueryState D E :=
  fetchSettle (applyOutcome o now (fetchStart st))

/-- A whole sequence of fetch attempts, each given by its outcome and
its settlement time, applied in order. -/
def runAttempts : List (FetchOutcome D E × Nat) → QueryState D E → QueryState D E
  | [], st => st
  | (o, t) :: rest, st => runAttempts rest (runAttempt1 o t st)

/-- The time of the most recent successful attempt in a list of
attempts, starting from a previously recorded time. -/
def lastSuccessTime : List (FetchOutcome D E × Nat) → Option Nat → Option Nat
  | [], acc => acc
  | (o, t) :: rest, acc =>
      lastSuccessTime rest (match o with | .ok _ => some t | .error _ => acc)

/-- The staleness gate of createQueryObserver.observer.fetch, as a
function of the stored lastUpdated value.  The JS test is
not lastUpdated or Date.now() - lastUpdated > staleTime; the JS
negation is truthiness-based, so it holds for the number 0 as well as
for undefined, and the subtraction is JS number subtraction, modelled
in Int. -/
def staleGate (staleTime now : Nat) : Option Nat → Bool
  | none => true
  | some t0 => t0 == 0 || decide ((now : Int) - (t0 : Int) > (staleTime : Int))

/-- Whether observer.fetch at time now triggers query.fetch for a
query in state st. -/
def shouldFetch (staleTime now : Nat) (st : QueryState D E) : Bool :=
  staleGate staleTime now st.lastUpdated

/-- The query object built by createQuery.  The first group of fields
are the object's own fields in the source.  Observers are identified
by numbers, and the in-flight promise by a numeric handle.  The second
group records the surrounding runtime: pendingGC is the multiset of
set-but-not-yet-cleared-or-fired timeout tasks (id and deadline) that
setTimeout created for this query, inRegistry is this query's
membership in client.queries, fnCalls counts invocations of the
user-supplied queryFn, rounds logs for each setState call the list of
subscribers notified by it, in order, and emptiedSinceSub is a ghost
history flag: it is set exactly when an unsubscribe empties the
subscriber list and cleared exactly when a subscribe occurs. -/
structure Query (D E : Type) where
  queryHash : String
  fnId : Nat
  cacheTime : Nat
  qid : Nat
  state : QueryState D E
  promise : Option Nat
  subscribers : List Nat
  gcTimeout : Option Nat
  pendingGC : List (Nat × Nat)
  inRegistry : Bool
  fnCalls : Nat
  nextHandle : Nat
  nextTimer : Nat
  rounds : List (List Nat)
  emptiedSinceSub : Bool
deriving DecidableEq, Repr

/-- query.setState: apply the updater to query.state, then notify every
currently subscribed observer in list order.  The recipients of this
one notification round are logged in rounds. -/
def setState (upd : QueryState D E → QueryState D E) (q : Query D E) :
    Query D E :=
  { q with state := upd q.state, rounds := q.rounds ++ [q.subscribers] }

/-- query.unscheduleGC: clearTimeout(query.gcTimeout).  The task with
the stored id, if still pending, is cancelled; the stored handle itself
is not nulled by the source.  clearTimeout of an absent or already
fired id is a no-op. -/
def unscheduleGC (q : Query D E) : Query D E :=
  match q.gcTimeout with
  | none => q
  | some id => { q with pendingGC := q.pendingGC.filter (fun p => p.1 != id) }

/-- query.scheduleGC at time now: setTimeout of a removal task with
delay cacheTime; the fresh task id is stored in gcTimeout, overwriting
the previous handle without clearing its task. -/
def scheduleGC (now : Nat) (q : Query D E) : Query D E :=
  { q with gcTimeout := some q.nextTimer
           pendingGC := q.pendingGC ++ [(q.nextTimer, now + q.cacheTime)]
           nextTimer := q.nextTimer + 1 }

/-- query.subscribe: push the subscriber, then unscheduleGC.  The ghost
flag emptiedSinceSub is cleared: a subscribe has now occurred. -/
def subscribe (s : Nat) (q : Query D E) : Query D E :=
  unscheduleGC
    { q with subscribers := q.subscribers ++ [s], emptiedSinceSub := false }

/-- The unsubscribe closure returned by query.subscribe, invoked at
time now: filter the subscriber out; if the list became empty,
scheduleGC (and the ghost flag records that the list became empty with
no subscribe since). -/
def unsubscribe (s : Nat) (now : Nat) (q : Query D E) : Query D E :=
  let q1 := { q with subscribers := q.subscribers.filter (fun d => d != s) }
  if q1.subscribers.isEmpty then
    scheduleGC now { q1 with emptiedSinceSub := true }
  else q1

/-- The body of the timeout task set by scheduleGC, for task id:
client.queries is filtered to drop this query, and the fired task
leaves the pending set. -/
def gcFire (id : Nat) (q : Query D E) : Query D E :=
  { q with inRegistry := false
           pendingGC := q.pendingGC.filter (fun p => p.1 != id) }

/-- query.fetch, up to its suspension point, together with the handle
it returns.  If an in-flight handle is stored, it is returned as is and
nothing else happens.  Otherwise a fresh handle is stored, queryFn is
invoked once (counted in fnCalls), and the fetch start setState runs;
all of this is synchronous in the source, before the await suspends. -/
def qfetch (q : Query D E) : Query D E × Nat :=
  match q.promise with
  | some h => (q, h)
  | none =>
      let h := q.nextHandle
      (setState fetchStart
        { q with promise := some h, nextHandle := h + 1
                 fnCalls := q.fnCalls + 1 },
       h)

/-- n successive calls of query.fetch, returning the final query and
the list of handles the calls returned, in call order. -/
def qfetchN : Nat → Query D E → Query D E × List Nat
  | 0, q => (q, [])
  | n + 1, q =>
      let p := qfetch q
      let r := qfetchN n p.1
      (r.1, p.2 :: r.2)

/-- The settlement continuation of query.fetch once the awaited
queryFn call finished with outcome o at time now: the try/catch
setState for the outcome, then the finally branch, which first nulls
query.promise and then runs the settle setState. -/
def qsettle (o : FetchOutcome D E) (now : Nat) (q : Query D E) : Query D E :=
  let q1 :=
    match o with
    | .ok d => setState (fetchSuccess d now) q
    | .error e => setState (fetchFailure e) q
  setState fetchSettle { q1 with promise := none }

/-- General shape of the source's try/catch/finally inside the async
function: if the body throws, the handler runs (and may itself throw);
the finalizer runs on every exit path, and the async function's promise
rejects only if an error escapes the catch. -/
def jsTryCatchFinally {E σ : Type} (body : Except E σ)
    (handler : E → Except E σ) (finalizer : σ → σ) : Except E σ :=
  match body with
  | .ok s => .ok (finalizer s)
  | .error e => (handler e).map finalizer

/-- The try block of the async fetch body: await queryFn() rethrows a
rejection; on resolution the success setState runs. -/
def tryBlock (o : FetchOutcome D E) (now : Nat) (q : Query D E) :
    Except E (Query D E) := do
  let d ← o
  pure (setState (fetchSuccess d now) q)

/-- The catch block: the error setState, which cannot throw. -/
def catchBlock (e : E) (q : Query D E) : Query D E :=
  setState (fetchFailure e) q

/-- The finally block: null the promise, then the settle setState. -/
def finallyBlock (q : Query D E) : Query D E :=
  setState fetchSettle { q with promise := none }

/-- The whole async function body started by query.fetch after the
suspension, as the source composes it: a throw from the awaited
queryFn is caught by the catch block and the finally block always
runs, so the result is the async function's own promise outcome. -/
def asyncFetchBody (o : FetchOutcome D E) (now : Nat) (q : Query D E) :
    Except E (Query D E) :=
  jsTryCatchFinally (tryBlock o now q) (fun e => .ok (catchBlock e q))
    finallyBlock

/-- observer.fetch at time now: call query.fetch only when the
staleness gate passes; the Bool records whether query.fetch was
called. -/
def observerFetch (staleTime now : Nat) (q : Query D E) : Query D E × Bool :=
  if shouldFetch staleTime now q.state then ((qfetch q).1, true)
  else (q, false)

/-- One element of a query key: the keys used with this library are
arrays of strings and numbers (for example a list holding the string
post and a post id). -/
inductive KeyPart where
  | str : String → KeyPart
  | num : Int → KeyPart
deriving DecidableEq, Repr

/-- JSON rendering of one key element, as JSON.stringify renders a
string or a number inside an array. -/
def stringifyPart : KeyPart → String
  | .str s => "\x22" ++ s ++ "\x22"
  | .num n => toString n

/-- JSON.stringify(queryKey) for an array key: the canonical string
used as the registry address. -/
def stringifyKey (k : List KeyPart) : String :=
  "[" ++ String.intercalate "," (k.map stringifyPart) ++ "]"

/-- createQuery(client, options): the fresh query object, with the
default cacheTime of five minutes applied when the option is absent.
The qid is the fresh object's identity. -/
def createQuery (queryHash : String) (fnId : Nat) (cacheTime : Option Nat)
    (qid : Nat) : Query D E :=
  { queryHash := queryHash
    fnId := fnId
    cacheTime := cacheTime.getD (5 * 60 * 1000)
    qid := qid
    state := initialState
    promise := none
    subscribers := []
    gcTimeout := none
    pendingGC := []
    inRegistry := true
    fnCalls := 0
    nextHandle := 0
    nextTimer := 0
    rounds := []
    emptiedSinceSub := false }

/-- The part of createQueryObserver fixed at observer creation: the
staleness threshold, with its default of 0 applied when the option is
absent. -/
structure ObserverCfg where
  staleTime : Nat
deriving DecidableEq, Repr

/-- createQueryObserver's handling of the staleTime option. -/
def createQueryObserver (staleTime : Option Nat) : ObserverCfg :=
  { staleTime := staleTime.getD 0 }

/-- The QueryClient: the query registry (an array, searched by
queryHash) and the counter supplying fresh object identities. -/
structure QueryClient (D E : Type) where
  queries : List (Query D E)
  nextQid : Nat
deriving DecidableEq, Repr

/-- QueryClient.getQuery: stringify the key, search the registry for a
query with that hash; if found return it unchanged (the supplied
fnId and cacheTime are ignored), otherwise create a query with the
supplied configuration and push it. -/
def getQuery (key : List KeyPart) (fnId : Nat) (cacheTime : Option Nat)
    (c : QueryClient D E) : Query D E × QueryClient D E :=
  match c.queries.find? (fun q => q.queryHash == stringifyKey key) with
  | some q => (q, c)
  | none =>
      (createQuery (stringifyKey key) fnId cacheTime c.nextQid,
       { queries :=
           c.queries ++ [createQuery (stringifyKey key) fnId cacheTime c.nextQid]
         nextQid := c.nextQid + 1 })

/-- Events of the single-threaded runtime acting on one query.  sub and
unsub carry the event time and the observer identity, fire carries the
time and the timeout task id that the event loop runs, fetchC is a call
of query.fetch, and settle is the resumption of the in-flight fetch
with the queryFn outcome and the settlement time. -/
inductive QEvent (D E : Type) where
  | sub : Nat → Nat → QEvent D E
  | unsub : Nat → Nat → QEvent D E
  | fire : Nat → Nat → QEvent D E
  | fetchC : QEvent D E
  | settle : FetchOutcome D E → Nat → QEvent D E

/-- Enabledness of an event: an observer subscribes only while not yet
subscribed, each unsubscribe closure is invoked once for a currently
subscribed observer, the event loop runs a timeout task only if it is
pending and its deadline has passed, and a settlement resumes only an
in-flight fetch. -/
def enabled : QEvent D E → Query D E → Bool
  | .sub _ s, q => decide (s ∉ q.subscribers)
  | .unsub _ s, q => decide (s ∈ q.subscribers)
  | .fire t id, q => q.pendingGC.any (fun p => p.1 == id && decide (p.2 ≤ t))
  | .fetchC, _ => true
  | .settle _ _, q => q.promise.isSome

/-- Effect of one event on the query. -/
def stepEv : QEvent D E → Query D E → Query D E
  | .sub _ s, q => subscribe s q
  | .unsub t s, q => unsubscribe s t q
  | .fire _ id, q => gcFire id q
  | .fetchC, q => (qfetch q).1
  | .settle o t, q => qsettle o t q

/-- Run a list of events in order, refusing a trace whose next event is
not enabled. -/
def runOK : List (QEvent D E) → Query D E → Option (Query D E)
  | [], q => some q
  | e :: es, q => if enabled e q then runOK es (stepEv e q) else none

/-- A trace along which the subscriber list is never empty, at any
state it passes through, the final one included. -/
def neverEmpty : List (QEvent D E) → Query D E → Bool
  | [], q => !q.subscribers.isEmpty
  | e :: es, q => !q.subscribers.isEmpty && neverEmpty es (stepEv e q)

/-- A trace containing no subscribe event and no timer firing. -/
def noSubNoFire : List (QEvent D E) → Bool
  | [] => true
  | .sub _ _ :: _ => false
  | .fire _ _ :: _ => false
  | _ :: es => noSubNoFire es

/-- The GC timer discipline invariant: at most one timeout task of this
query is pending; every pending task is the one whose id the stored
handle names; a pending task implies an empty subscriber list; and for
a query still in the registry, a task is pending exactly when the
subscriber list became empty with no subscribe since (the ghost
flag). -/
def GCInv (q : Query D E) : Prop :=
  q.pendingGC.length ≤ 1 ∧
  (∀ p ∈ q.pendingGC, q.gcTimeout = some p.1) ∧
  (q.pendingGC ≠ [] → q.subscribers = []) ∧
  (q.inRegistry = true → (q.pendingGC ≠ [] ↔ q.emptiedSinceSub = true))

/-- C4: a fetch failure sets status to error and stores the failure in
state.error while leaving state.data unchanged, both for the failure
updater itself and across the whole failed fetch attempt of the query
(call step, failure branch, settle branch): previously cached data is
not cleared by a failed fetch. -/
theorem fetch_failure_preserves_data :
    (∀ (e : E) (st : QueryState D E),
      (fetchFailure e st).status = .error ∧
      (fetchFailure e st).error = some e ∧
      (fetchFailure e st).data = st.data ∧
      (fetchFailure e st).lastUpdated = st.lastUpdated) ∧
    (∀ (e : E) (now : Nat) (q : Query D E),
      (qsettle (Except.error e) now (qfetch q).1).state.status = .error ∧
      (qsettle (Except.error e) now (qfetch q).1).state.error = some e ∧
      (qsettle (Except.error e) now (qfetch q).1).state.data = q.state.data) := by
  refine ⟨fun e st => ⟨rfl, rfl, rfl, rfl⟩, fun e now q => ?_⟩
  cases hp : q.promise <;>
    simp [qfetch, qsettle, setState, hp, fetchStart, fetchFailure, fetchSettle]

/-- C5: on settlement of any fetch attempt, success or failure alike,
isFetching is false and the in-flight handle is cleared, so an
immediately subsequent query.fetch call starts a new invocation of the
fetch operation (fnCalls grows by one and a fresh handle is stored). -/
theorem fetch_settle_clears_inflight (o : FetchOutcome D E) (now : Nat)
    (q : Query D E) :
    (qsettle o now q).state.isFetching = false ∧
    (qsettle o now q).promise = none ∧
    (qsettle o now q).fnCalls = q.fnCalls ∧
    (qfetch (qsettle o now q)).1.fnCalls = q.fnCalls + 1 ∧
    (qfetch (qsettle o now q)).1.promise = some (qsettle o now q).nextHandle := by
  cases o <;>
    simp [qsettle, qfetch, setState, fetchSettle, fetchSuccess, fetchFailure,
      fetchStart]

/-- C8: a failure of the underlying fetch operation never surfaces as a
failure of the query.fetch call: the async body always completes with
Except.ok (its value being exactly the settled query), and the failure
is observable only through the stored state, whose status is error and
whose error field holds the failure. -/
theorem fetch_call_never_rejects (now : Nat) (q : Query D E) :
    (∀ o : FetchOutcome D E,
      asyncFetchBody o now q = Except.ok (qsettle o now q)) ∧
    (∀ e : E,
      (qsettle (Except.error e) now q).state.status = .error ∧
      (qsettle (Except.error e) now q).state.error = some e) := by
  constructor
  · intro o
    cases o <;>
      simp [asyncFetchBody, jsTryCatchFinally, tryBlock, catchBlock,
        finallyBlock, qsettle, Except.map]
  · intro e
    simp [qsettle, setState, fetchFailure, fetchSettle]

/-- A query.fetch call with an in-flight handle returns that handle and
changes nothing. -/
lemma qfetch_inflight (q : Query D E) (h : Nat) (hp : q.promise = some h) :
    qfetch q = (q, h) := by
  simp [qfetch, hp]

/-- Repeated query.fetch calls with an in-flight handle all return that
handle and change nothing. -/
lemma qfetchN_inflight (n : Nat) (q : Query D E) (h : Nat)
    (hp : q.promise = some h) :
    qfetchN n q = (q, List.replicate n h) := by
  induction n with
  | zero => simp [qfetchN]
  | succ n ih => simp [qfetchN, qfetch_inflight q h hp, ih, List.replicate_succ]

/-- C1: fetch dedup.  A query.fetch call while a previous fetch is in
flight returns the stored handle and performs no new invocation of the
fetch operation; consequently any number of consecutive fetch calls
starting from an idle query invoke the fetch operation exactly once,
and every caller receives the one handle stored by the first call. -/
theorem fetch_dedup :
    (∀ (q : Query D E) (h : Nat), q.promise = some h → qfetch q = (q, h)) ∧
    (∀ (n : Nat) (q : Query D E), q.promise = none →
      (qfetchN (n + 1) q).1.fnCalls = q.fnCalls + 1 ∧
      (qfetchN (n + 1) q).2 = List.replicate (n + 1) q.nextHandle) := by
  refine ⟨qfetch_inflight, fun n q hp => ?_⟩
  have h1 : qfetch q =
      (setState fetchStart
        { q with promise := some q.nextHandle, nextHandle := q.nextHandle + 1
                 fnCalls := q.fnCalls + 1 },
       q.nextHandle) := by
    simp [qfetch, hp]
  have h2 : (qfetch q).1.promise = some q.nextHandle := by rw [h1]; rfl
  have h3 := qfetchN_inflight n (qfetch q).1 q.nextHandle h2
  constructor
  · show (qfetchN (n + 1) q).1.fnCalls = q.fnCalls + 1
    simp only [qfetchN, h3]
    rw [h1]
    rfl
  · show (qfetchN (n + 1) q).2 = List.replicate (n + 1) q.nextHandle
    simp only [qfetchN, h3, List.replicate_succ]
    rw [h1]

/-- Concrete run of the dedup theorem: three consecutive fetch calls on
a fresh idle query invoke the fetch operation once and all return
handle 0. -/
theorem fetch_dedup_witness :
    (createQuery "k" 0 none 0 : Query Nat Nat).promise = none ∧
    (qfetchN 3 (createQuery "k" 0 none 0 : Query Nat Nat)).1.fnCalls = 0 + 1 ∧
    (qfetchN 3 (createQuery "k" 0 none 0 : Query Nat Nat)).2 =
      List.replicate 3 0 :=
  ⟨rfl, (fetch_dedup.2 2 (createQuery "k" 0 none 0) rfl).1,
    (fetch_dedup.2 2 (createQuery "k" 0 none 0) rfl).2⟩

/-- clearTimeout touches no field but the pending-task set. -/
lemma unscheduleGC_subscribers (q : Query D E) :
    (unscheduleGC q).subscribers = q.subscribers := by
  cases hg : q.gcTimeout <;> simp [unscheduleGC, hg]

/-- After running the unsubscribe closure for s, s is no longer in the
subscriber list. -/
lemma unsubscribe_not_mem (s t : Nat) (q : Query D E) :
    s ∉ (unsubscribe s t q).subscribers := by
  simp only [unsubscribe]
  split <;> simp [scheduleGC, List.mem_filter]

/-- C7: each setState call applies the updater to the previous state
and produces exactly one notification round whose recipients are the
subscribers of that moment, in list order; subscription appends to the
end of the list, so the order is subscription order; a subscriber that
unsubscribed is absent from the list and hence from every later round;
a duplicate-free subscriber list notifies each subscriber exactly once;
and two setState calls produce two separate rounds, with no
coalescing. -/
theorem setState_notification_fanout :
    (∀ (upd : QueryState D E → QueryState D E) (q : Query D E),
      (setState upd q).rounds = q.rounds ++ [q.subscribers] ∧
      (setState upd q).state = upd q.state ∧
      (setState upd q).subscribers = q.subscribers) ∧
    (∀ (upd1 upd2 : QueryState D E → QueryState D E) (q : Query D E),
      (setState upd2 (setState upd1 q)).rounds =
        q.rounds ++ [q.subscribers] ++ [q.subscribers]) ∧
    (∀ (s : Nat) (q : Query D E),
      (subscribe s q).subscribers = q.subscribers ++ [s]) ∧
    (∀ (s t : Nat) (q : Query D E), s ∉ (unsubscribe s t q).subscribers) ∧
    (∀ (q : Query D E) (s : Nat), q.subscribers.Nodup → s ∈ q.subscribers →
      q.subscribers.count s = 1) := by
  refine ⟨fun upd q => ⟨rfl, rfl, rfl⟩, fun upd1 upd2 q => by simp [setState],
    fun s q => ?_, unsubscribe_not_mem,
    fun q s hd hm => List.count_eq_one_of_mem hd hm⟩
  simp [subscribe, unscheduleGC_subscribers]

/-- Concrete run of the fan-out theorem on a query with subscribers 3
and 5: a duplicate-free list notifies subscriber 5 exactly once. -/
theorem setState_notification_fanout_witness :
    ({ (createQuery "k" 0 none 0 : Query Nat Nat) with
        subscribers := [3, 5] } : Query Nat Nat).subscribers.count 5 = 1 :=
  setState_notification_fanout.2.2.2.2
    { (createQuery "k" 0 none 0 : Query Nat Nat) with subscribers := [3, 5] }
    5 (by decide) (by decide)

/-- C9: omitted configuration defaults.  createQueryObserver defaults
staleTime to 0, so with a recorded lastUpdated any positive elapsed
time passes the staleness gate; createQuery defaults cacheTime to five
minutes, 300000 ms, and the GC task scheduled for such a query is due
300000 ms after scheduling. -/
theorem config_defaults :
    (createQueryObserver none).staleTime = 0 ∧
    (createQuery "h" 0 none 0 : Query D E).cacheTime = 300000 ∧
    (∀ (now t0 : Nat) (st : QueryState D E), st.lastUpdated = some t0 →
      (now : Int) - (t0 : Int) > 0 →
      shouldFetch (createQueryObserver none).staleTime now st = true) ∧
    (∀ t : Nat,
      (scheduleGC t (createQuery "h" 0 none 0 : Query D E)).pendingGC =
        [(0, t + 300000)]) := by
  refine ⟨rfl, rfl, fun now t0 st hlu hgt => ?_, fun t => ?_⟩
  · simp only [shouldFetch, staleGate, hlu, createQueryObserver,
      Option.getD_none, Bool.or_eq_true, beq_iff_eq, decide_eq_true_eq]
    rcases Nat.eq_zero_or_pos t0 with h0 | h0
    · exact Or.inl h0
    · exact Or.inr (by exact_mod_cast hgt)
  · simp [scheduleGC, createQuery]

/-- Concrete run of the defaults theorem: with the default staleTime 0,
a query last updated at time 2 is refetched at time 5. -/
theorem config_defaults_witness :
    shouldFetch (createQueryObserver none).staleTime 5
      ({ initialState with lastUpdated := some 2 } : QueryState Nat Nat) =
      true :=
  config_defaults.2.2.1 5 2 { initialState with lastUpdated := some 2 } rfl
    (by decide)

/-- A single attempt writes lastUpdated exactly when it succeeds. -/
lemma runAttempt1_lastUpdated (o : FetchOutcome D E) (t : Nat)
    (st : QueryState D E) :
    (runAttempt1 o t st).lastUpdated =
      (match o with | .ok _ => some t | .error _ => st.lastUpdated) := by
  cases o <;> rfl

/-- Across any sequence of attempts, lastUpdated is the time of the
most recent success. -/
lemma runAttempts_lastUpdated (atts : List (FetchOutcome D E × Nat)) :
    ∀ st : QueryState D E,
      (runAttempts atts st).lastUpdated = lastSuccessTime atts st.lastUpdated := by
  induction atts with
  | nil => intro st; rfl
  | cons a rest ih =>
      intro st
      obtain ⟨o, t⟩ := a
      simp only [runAttempts, lastSuccessTime, ih, runAttempt1_lastUpdated]

/-- C10: lastUpdated is written only by the success transition.  The
start, failure and settle transitions preserve it, success sets it to
the settlement time, so over any sequence of attempts it records the
time of the most recent success, and the staleness gate applied after
those attempts reads exactly that time; finally, the per-query fetch
pipeline for an idle query performs exactly one such attempt on its
state. -/
theorem lastUpdated_success_only :
    (∀ st : QueryState D E, (fetchStart st).lastUpdated = st.lastUpdated) ∧
    (∀ (e : E) (st : QueryState D E),
      (fetchFailure e st).lastUpdated = st.lastUpdated) ∧
    (∀ st : QueryState D E, (fetchSettle st).lastUpdated = st.lastUpdated) ∧
    (∀ (d : D) (t : Nat) (st : QueryState D E),
      (fetchSuccess d t st).lastUpdated = some t) ∧
    (∀ (atts : List (FetchOutcome D E × Nat)) (st : QueryState D E),
      (runAttempts atts st).lastUpdated = lastSuccessTime atts st.lastUpdated) ∧
    (∀ (staleTime now : Nat) (atts : List (FetchOutcome D E × Nat))
      (st : QueryState D E),
      shouldFetch staleTime now (runAttempts atts st) =
        staleGate staleTime now (lastSuccessTime atts st.lastUpdated)) ∧
    (∀ (o : FetchOutcome D E) (t : Nat) (q : Query D E), q.promise = none →
      (qsettle o t (qfetch q).1).state = runAttempt1 o t q.state) := by
  refine ⟨fun st => rfl, fun e st => rfl, fun st => rfl, fun d t st => rfl,
    fun atts st => runAttempts_lastUpdated atts st,
    fun staleTime now atts st => ?_, fun o t q hp => ?_⟩
  · simp [shouldFetch, runAttempts_lastUpdated]
  · cases o <;>
      simp [qsettle, qfetch, hp, setState, runAttempt1, applyOutcome]

/-- Concrete run of the lastUpdated theorem: one successful attempt at
time 9 on a fresh query's state. -/
theorem lastUpdated_success_only_witness :
    (qsettle (Except.ok 7) 9
        (qfetch (createQuery "k" 0 none 0 : Query Nat Nat)).1).state =
      runAttempt1 (Except.ok 7) 9
        (createQuery "k" 0 none 0 : Query Nat Nat).state :=
  lastUpdated_success_only.2.2.2.2.2.2 (Except.ok 7) 9
    (createQuery "k" 0 none 0) rfl

/-- The query getQuery returns is addressed by the canonical string of
the supplied key, whether it was found or freshly created. -/
lemma getQuery_queryHash (k : List KeyPart) (f : Nat) (ct : Option Nat)
    (c : QueryClient D E) :
    (getQuery k f ct c).1.queryHash = stringifyKey k := by
  unfold getQuery
  cases hf : c.queries.find? (fun q => q.queryHash == stringifyKey k) with
  | none => rfl
  | some q => simpa using List.find?_some hf

/-- C6: registry addressing.  Two successive getQuery lookups whose
keys have equal canonical string forms return the identical query;
lookups with differing canonical forms return distinct queries; and a
getQuery call for a key whose query is still in the registry returns
that existing query with the client unchanged, whatever fetch
operation and cacheTime the call supplies: the new configuration is
ignored. -/
theorem getQuery_addressing :
    (∀ (c : QueryClient D E) (k1 k2 : List KeyPart) (f1 f2 : Nat)
      (ct1 ct2 : Option Nat),
      stringifyKey k1 = stringifyKey k2 →
      (getQuery k2 f2 ct2 (getQuery k1 f1 ct1 c).2).1 =
        (getQuery k1 f1 ct1 c).1) ∧
    (∀ (c : QueryClient D E) (k1 k2 : List KeyPart) (f1 f2 : Nat)
      (ct1 ct2 : Option Nat),
      stringifyKey k1 ≠ stringifyKey k2 →
      (getQuery k2 f2 ct2 (getQuery k1 f1 ct1 c).2).1 ≠
        (getQuery k1 f1 ct1 c).1) ∧
    (∀ (c : QueryClient D E) (k : List KeyPart) (q0 : Query D E),
      c.queries.find? (fun q => q.queryHash == stringifyKey k) = some q0 →
      ∀ (f : Nat) (ct : Option Nat), getQuery k f ct c = (q0, c)) := by
  refine ⟨fun c k1 k2 f1 f2 ct1 ct2 heq => ?_,
    fun c k1 k2 f1 f2 ct1 ct2 hne contra => ?_,
    fun c k q0 hf f ct => ?_⟩
  · unfold getQuery
    cases hf : c.queries.find? (fun q => q.queryHash == stringifyKey k1) with
    | some q => simp [← heq, hf]
    | none => simp [← heq, hf, List.find?_append, createQuery]
  · have h1 := getQuery_queryHash k1 f1 ct1 c
    have h2 := getQuery_queryHash k2 f2 ct2 (getQuery k1 f1 ct1 c).2
    rw [contra, h1] at h2
    exact hne h2
  · unfold getQuery
    rw [hf]

/-- Concrete run of the addressing theorem: on an empty client, looking
up the key of post 2 and then looking it up again, even with a
different fetch operation and cacheTime, yields the query created by
the first lookup. -/
theorem getQuery_addressing_witness :
    (getQuery [KeyPart.str "post", KeyPart.num 2] 1 (some 9)
        (getQuery [KeyPart.str "post", KeyPart.num 2] 0 none
          ({ queries := [], nextQid := 0 } : QueryClient Nat Nat)).2).1 =
      (getQuery [KeyPart.str "post", KeyPart.num 2] 0 none
        ({ queries := [], nextQid := 0 } : QueryClient Nat Nat)).1 :=
  getQuery_addressing.1 { queries := [], nextQid := 0 }
    [KeyPart.str "post", KeyPart.num 2] [KeyPart.str "post", KeyPart.num 2]
    0 1 none (some 9) rfl

/-- The Bool returned by observerFetch is exactly the staleness
gate evaluated on the query's state. -/
lemma observerFetch_snd (staleTime now : Nat) (q : Query D E) :
    (observerFetch staleTime now q).2 = shouldFetch staleTime now q.state := by
  by_cases h : shouldFetch staleTime now q.state = true <;>
    simp [observerFetch, h]

/-- Truth condition of the staleness gate: it passes when lastUpdated
is undefined, when it is the falsy timestamp 0, or when the elapsed
time strictly exceeds the threshold. -/
lemma staleGate_eq_true (staleTime now : Nat) (lu : Option Nat) :
    staleGate staleTime now lu = true ↔
      (lu = none ∨ lu = some 0 ∨
        ∃ t0, lu = some t0 ∧ (now : Int) - (t0 : Int) > (staleTime : Int)) := by
  cases lu with
  | none => simp [staleGate]
  | some t0 => simp [staleGate]

/-- A concrete fresh query used as test input. -/
def qBase : Query Nat Nat := createQuery "k" 0 none 0

/-- A concrete state recording a successful fetch at the falsy
timestamp 0. -/
def stEpoch : QueryState Nat Nat := { initialState with lastUpdated := some 0 }

/-- A concrete state recording a successful fetch at time 5. -/
def stFive : QueryState Nat Nat := { initialState with lastUpdated := some 5 }

/-- A concrete query whose state records a successful fetch at the
falsy timestamp 0. -/
def qAtEpoch : Query Nat Nat := { qBase with state := stEpoch }

/-- A concrete query whose state records a successful fetch at time 5. -/
def qAtFive : Query Nat Nat := { qBase with state := stFive }

/-- C2 counterexample: at lastUpdated = 0 (a recorded success at
epoch time 0), threshold 1 and current time 1, the code triggers a
query fetch although lastUpdated is set and the elapsed time 1 - 0
does not exceed the threshold, so the claimed condition is false. -/
theorem staleness_gate_claim_false :
    (observerFetch 1 1 qAtEpoch).2 = true ∧
    ¬ (qAtEpoch.state.lastUpdated = none ∨
        (1 : Int) - ((0 : Nat) : Int) > ((1 : Nat) : Int)) := by
  refine ⟨by decide, by decide⟩

/-- C2 amended: observer.fetch at time now triggers query.fetch iff
lastUpdated is unset, or lastUpdated is the falsy timestamp 0, or
now - lastUpdated > staleTime; otherwise it is a no-op that leaves the
query untouched and performs no new fetch attempt. -/
theorem staleness_gate_amended (staleTime now : Nat) (q : Query D E) :
    ((observerFetch staleTime now q).2 = true ↔
      (q.state.lastUpdated = none ∨ q.state.lastUpdated = some 0 ∨
        ∃ t0, q.state.lastUpdated = some t0 ∧
          (now : Int) - (t0 : Int) > (staleTime : Int))) ∧
    ((observerFetch staleTime now q).2 = true →
      (observerFetch staleTime now q).1 = (qfetch q).1) ∧
    ((observerFetch staleTime now q).2 = false →
      observerFetch staleTime now q = (q, false)) := by
  refine ⟨?_, fun h => ?_, fun h => ?_⟩
  · rw [observerFetch_snd, shouldFetch, staleGate_eq_true]
  · rw [observerFetch_snd] at h
    simp [observerFetch, h]
  · rw [observerFetch_snd] at h
    simp [observerFetch, h]

/-- Concrete runs of the amended theorem: with threshold 10, a query
updated at time 5 is not refetched at time 7 (a strict no-op), and an
update-free query is fetched. -/
theorem staleness_gate_amended_witness :
    observerFetch 10 7 qAtFive = (qAtFive, false) ∧
    (observerFetch 10 7 (createQuery "k" 0 none 0 : Query Nat Nat)).1 =
      (qfetch (createQuery "k" 0 none 0 : Query Nat Nat)).1 :=
  ⟨(staleness_gate_amended 10 7 qAtFive).2.2 (by decide),
    (staleness_gate_amended 10 7 (createQuery "k" 0 none 0)).2.1 (by decide)⟩

/-- A fetch call touches none of the subscription and GC fields. -/
lemma qfetch_gcFields (q : Query D E) :
    (qfetch q).1.pendingGC = q.pendingGC ∧
    (qfetch q).1.subscribers = q.subscribers ∧
    (qfetch q).1.gcTimeout = q.gcTimeout ∧
    (qfetch q).1.inRegistry = q.inRegistry ∧
    (qfetch q).1.emptiedSinceSub = q.emptiedSinceSub := by
  cases hp : q.promise <;> simp [qfetch, setState, hp]

/-- A fetch settlement touches none of the subscription and GC
fields. -/
lemma qsettle_gcFields (o : FetchOutcome D E) (t : Nat) (q : Query D E) :
    (qsettle o t q).pendingGC = q.pendingGC ∧
    (qsettle o t q).subscribers = q.subscribers ∧
    (qsettle o t q).gcTimeout = q.gcTimeout ∧
    (qsettle o t q).inRegistry = q.inRegistry ∧
    (qsettle o t q).emptiedSinceSub = q.emptiedSinceSub := by
  cases o <;> simp [qsettle, setState]

/-- subscribe appends the subscriber, clears the ghost flag and leaves
the timer handle and registry membership alone. -/
lemma subscribe_fields (s : Nat) (q : Query D E) :
    (subscribe s q).subscribers = q.subscribers ++ [s] ∧
    (subscribe s q).emptiedSinceSub = false ∧
    (subscribe s q).gcTimeout = q.gcTimeout ∧
    (subscribe s q).inRegistry = q.inRegistry := by
  cases hg : q.gcTimeout <;> simp [subscribe, unscheduleGC, hg]

/-- Because every pending task carries the id held in gcTimeout, the
clearTimeout run by subscribe cancels every pending GC task. -/
lemma subscribe_pendingGC (s : Nat) (q : Query D E)
    (hcov : ∀ p ∈ q.pendingGC, q.gcTimeout = some p.1) :
    (subscribe s q).pendingGC = [] := by
  cases hg : q.gcTimeout with
  | none =>
      have hnil : q.pendingGC = [] := by
        cases hq : q.pendingGC with
        | nil => rfl
        | cons p ps =>
            have := hcov p (by rw [hq]; exact List.mem_cons_self p ps)
            rw [hg] at this
            exact absurd this (by simp)
      simp [subscribe, unscheduleGC, hg, hnil]
  | some id =>
      simp only [subscribe, unscheduleGC, hg]
      rw [List.filter_eq_nil_iff]
      intro p hp
      have hm := hcov p hp
      rw [hg] at hm
      have h2 : id = p.1 := Option.some.inj hm
      simp [← h2]

/-- GCInv transports along equality of the subscription and GC
fields. -/
lemma GCInv_of_eqFields (q q2 : Query D E)
    (h1 : q2.pendingGC = q.pendingGC) (h2 : q2.subscribers = q.subscribers)
    (h3 : q2.gcTimeout = q.gcTimeout) (h4 : q2.inRegistry = q.inRegistry)
    (h5 : q2.emptiedSinceSub = q.emptiedSinceSub) (hI : GCInv q) :
    GCInv q2 := by
  unfold GCInv at hI ⊢
  rw [h1, h2, h3, h4, h5]
  exact hI

/-- The invariant holds for a freshly created query. -/
lemma GCInv_createQuery (h : String) (f : Nat) (ct : Option Nat) (i : Nat) :
    GCInv (createQuery h f ct i : Query D E) := by
  refine ⟨by simp [createQuery], by simp [createQuery], by simp [createQuery],
    by simp [createQuery]⟩

/-- One enabled event preserves the GC timer discipline invariant. -/
lemma GCInv_step (e : QEvent D E) (q : Query D E) (hI : GCInv q)
    (he : enabled e q = true) : GCInv (stepEv e q) := by
  obtain ⟨hlen, hcov, hsub, hreg⟩ := hI
  cases e with
  | sub t s =>
      show GCInv (subscribe s q)
      have hp := subscribe_pendingGC s q hcov
      obtain ⟨f1, f2, f3, f4⟩ := subscribe_fields s q
      refine ⟨by simp [hp], by simp [hp], by simp [hp], ?_⟩
      intro _
      rw [hp, f2]
      simp
  | unsub t s =>
      have hsmem : s ∈ q.subscribers := by simpa [enabled] using he
      have hpnil : q.pendingGC = [] := by
        by_contra hne
        rw [hsub hne] at hsmem
        exact absurd hsmem (List.not_mem_nil s)
      show GCInv (unsubscribe s t q)
      simp only [unsubscribe]
      by_cases hemp : (List.filter (fun d => d != s) q.subscribers).isEmpty = true
      · rw [if_pos hemp]
        have hsubs := List.isEmpty_iff.mp hemp
        refine ⟨by simp [scheduleGC, hpnil], ?_, ?_, ?_⟩
        · intro p hp
          simp only [scheduleGC, hpnil, List.nil_append, List.mem_singleton]
            at hp
          simp [scheduleGC, hp]
        · intro _
          simpa [scheduleGC] using hsubs
        · intro _
          simp [scheduleGC, hpnil]
      · rw [if_neg hemp]
        exact ⟨by simp [hpnil], by simp [hpnil],
          fun hne => absurd hpnil (by simpa using hne),
          fun hr => hreg hr⟩
  | fire t id =>
      show GCInv (gcFire id q)
      refine ⟨?_, ?_, ?_, ?_⟩
      · simp only [gcFire]
        exact le_trans (List.length_filter_le _ _) hlen
      · intro p hp
        simp only [gcFire] at hp ⊢
        exact hcov p (List.mem_filter.mp hp).1
      · intro hne
        simp only [gcFire] at hne ⊢
        refine hsub fun h0 => hne ?_
        simp [h0]
      · intro hr
        simp [gcFire] at hr
  | fetchC =>
      obtain ⟨f1, f2, f3, f4, f5⟩ := qfetch_gcFields q
      exact GCInv_of_eqFields q _ f1 f2 f3 f4 f5 ⟨hlen, hcov, hsub, hreg⟩
  | settle o t =>
      obtain ⟨f1, f2, f3, f4, f5⟩ := qsettle_gcFields o t q
      exact GCInv_of_eqFields q _ f1 f2 f3 f4 f5 ⟨hlen, hcov, hsub, hreg⟩

/-- The invariant holds at every state an enabled trace reaches. -/
lemma GCInv_runOK (es : List (QEvent D E)) :
    ∀ q q2 : Query D E, runOK es q = some q2 → GCInv q → GCInv q2 := by
  induction es with
  | nil =>
      intro q q2 h hI
      simp only [runOK, Option.some.injEq] at h
      exact h ▸ hI
  | cons e es ih =>
      intro q q2 h hI
      simp only [runOK] at h
      by_cases he : enabled e q = true
      · rw [if_pos he] at h
        exact ih _ _ h (GCInv_step e q hI he)
      · rw [if_neg he] at h
        exact absurd h (by simp)

/-- A trace that never empties the subscriber list starts at a state
with subscribers. -/
lemma neverEmpty_head (es : List (QEvent D E)) (q : Query D E)
    (h : neverEmpty es q = true) : q.subscribers.isEmpty = false := by
  cases es with
  | nil => simpa [neverEmpty] using h
  | cons e es =>
      simp only [neverEmpty, Bool.and_eq_true] at h
      simpa using h.1

/-- While the subscriber list stays nonempty, no new GC task can be
scheduled and the registry membership cannot change: an invariant-
respecting query with no pending task keeps no pending task and keeps
its registry membership along any such enabled trace. -/
lemma registry_stable (es : List (QEvent D E)) :
    ∀ q q2 : Query D E, neverEmpty es q = true → runOK es q = some q2 →
      GCInv q → q.pendingGC = [] →
      q2.pendingGC = [] ∧ q2.inRegistry = q.inRegistry := by
  induction es with
  | nil =>
      intro q q2 hne h hI hp
      simp only [runOK, Option.some.injEq] at h
      exact h ▸ ⟨hp, rfl⟩
  | cons e es ih =>
      intro q q2 hne h hI hp
      simp only [neverEmpty, Bool.and_eq_true] at hne
      obtain ⟨hne1, hne2⟩ := hne
      simp only [runOK] at h
      by_cases he : enabled e q = true
      case neg => rw [if_neg he] at h; exact absurd h (by simp)
      rw [if_pos he] at h
      have hI2 := GCInv_step e q hI he
      have hstep : (stepEv e q).pendingGC = [] ∧
          (stepEv e q).inRegistry = q.inRegistry := by
        cases e with
        | sub t s =>
            exact ⟨subscribe_pendingGC s q hI.2.1, (subscribe_fields s q).2.2.2⟩
        | unsub t s =>
            have hpost : (unsubscribe s t q).subscribers.isEmpty = false :=
              neverEmpty_head es _ hne2
            show (unsubscribe s t q).pendingGC = [] ∧
              (unsubscribe s t q).inRegistry = q.inRegistry
            simp only [unsubscribe] at hpost ⊢
            by_cases hemp :
                (List.filter (fun d => d != s) q.subscribers).isEmpty = true
            · rw [if_pos hemp] at hpost
              exact absurd hpost (by simp [scheduleGC, hemp])
            · rw [if_neg hemp]
              exact ⟨hp, rfl⟩
        | fire t id =>
            exact absurd he (by simp [enabled, hp])
        | fetchC =>
            show (qfetch q).1.pendingGC = [] ∧
              (qfetch q).1.inRegistry = q.inRegistry
            exact ⟨by rw [(qfetch_gcFields q).1, hp],
              (qfetch_gcFields q).2.2.2.1⟩
        | settle o t =>
            show (qsettle o t q).pendingGC = [] ∧
              (qsettle o t q).inRegistry = q.inRegistry
            exact ⟨by rw [(qsettle_gcFields o t q).1, hp],
              (qsettle_gcFields o t q).2.2.2.1⟩
      obtain ⟨r1, r2⟩ := ih _ _ hne2 h hI2 hstep.1
      exact ⟨r1, by rw [r2, hstep.2]⟩

/-- C3: the GC timer discipline at every state reachable from query
creation by enabled events.  First, while the query is in the registry
a GC task is pending exactly when the subscriber list became empty with
no subscribe since (the ghost flag), every pending state has an empty
subscriber list, and at most one task is ever pending.  Second,
unscheduling is idempotent.  Third, the scheduling performed when the
last subscriber leaves at time t installs exactly one pending task, due
at t + cacheTime, replacing any prior one.  Fourth, a due pending task
may fire, and firing removes the query from the registry.  Fifth, a
subscribe cancels every pending task.  Sixth, once no task is pending,
as long as a subscriber remains the query keeps no pending task and is
never removed from the registry. -/
theorem gc_timer_discipline :
    (∀ (h : String) (f : Nat) (ct : Option Nat) (i : Nat)
      (es : List (QEvent D E)) (q2 : Query D E),
      runOK es (createQuery h f ct i) = some q2 →
      ((q2.inRegistry = true →
          ((q2.pendingGC ≠ []) ↔ q2.emptiedSinceSub = true)) ∧
        (q2.pendingGC ≠ [] → q2.subscribers = []) ∧
        q2.pendingGC.length ≤ 1)) ∧
    (∀ q : Query D E, unscheduleGC (unscheduleGC q) = unscheduleGC q) ∧
    (∀ (h : String) (f : Nat) (ct : Option Nat) (i : Nat)
      (es : List (QEvent D E)) (q2 : Query D E) (s t : Nat),
      runOK es (createQuery h f ct i) = some q2 →
      s ∈ q2.subscribers →
      (q2.subscribers.filter (fun d => d != s)).isEmpty = true →
      (unsubscribe s t q2).pendingGC = [(q2.nextTimer, t + q2.cacheTime)]) ∧
    (∀ (q : Query D E) (t id d : Nat),
      q.pendingGC = [(id, d)] → d ≤ t →
      enabled (QEvent.fire t id) q = true ∧
      (stepEv (QEvent.fire t id) q).inRegistry = false) ∧
    (∀ (h : String) (f : Nat) (ct : Option Nat) (i : Nat)
      (es : List (QEvent D E)) (q2 : Query D E) (s : Nat),
      runOK es (createQuery h f ct i) = some q2 →
      (subscribe s q2).pendingGC = []) ∧
    (∀ (h : String) (f : Nat) (ct : Option Nat) (i : Nat)
      (es es2 : List (QEvent D E)) (q2 q3 : Query D E),
      runOK es (createQuery h f ct i) = some q2 →
      q2.pendingGC = [] →
      neverEmpty es2 q2 = true →
      runOK es2 q2 = some q3 →
      q3.pendingGC = [] ∧ q3.inRegistry = q2.inRegistry) := by
  refine ⟨fun h f ct i es q2 hrun => ?_, fun q => ?_,
    fun h f ct i es q2 s t hrun hmem hemp => ?_,
    fun q t id d hpend hle => ?_,
    fun h f ct i es q2 s hrun => ?_,
    fun h f ct i es es2 q2 q3 hrun hp hne hrun2 => ?_⟩
  · have hI := GCInv_runOK es (createQuery h f ct i) q2 hrun
      (GCInv_createQuery h f ct i)
    exact ⟨hI.2.2.2, hI.2.2.1, hI.1⟩
  · cases hg : q.gcTimeout with
    | none => simp [unscheduleGC, hg]
    | some id => simp [unscheduleGC, hg, List.filter_filter]
  · have hI := GCInv_runOK es (createQuery h f ct i) q2 hrun
      (GCInv_createQuery h f ct i)
    have hpnil : q2.pendingGC = [] := by
      by_contra hne
      rw [hI.2.2.1 hne] at hmem
      exact absurd hmem (List.not_mem_nil s)
    simp [unsubscribe, hemp, scheduleGC, hpnil]
  · constructor
    · simp [enabled, hpend, hle]
    · rfl
  · have hI := GCInv_runOK es (createQuery h f ct i) q2 hrun
      (GCInv_createQuery h f ct i)
    exact subscribe_pendingGC s q2 hI.2.1
  · have hI := GCInv_runOK es (createQuery h f ct i) q2 hrun
      (GCInv_createQuery h f ct i)
    exact registry_stable es2 q2 q3 hne hrun2 hI hp

/-- The concrete query reached from creation with cacheTime 100 by a
subscribe of observer 3 at time 0 and its unsubscribe at time 2: one GC
task (id 0) is pending with deadline 102. -/
def qAfterDrop : Query Nat Nat :=
  ⟨"k", 0, 100, 0, initialState, none, [], some 0, [(0, 102)], true, 0, 0, 1,
    [], true⟩

/-- The concrete query reached from creation by a subscribe of
observer 3 at time 0. -/
def qSubbed : Query Nat Nat :=
  ⟨"k", 0, 100, 0, initialState, none, [3], none, [], true, 0, 0, 0, [],
    false⟩

/-- The concrete query reached from qSubbed by one fetch call. -/
def qSubbedFetched : Query Nat Nat :=
  ⟨"k", 0, 100, 0, initialState, some 0, [3], none, [], true, 1, 1, 0, [[3]],
    false⟩

/-- Concrete runs of the GC discipline theorem on small traces: after a
subscribe and an unsubscribe at time 2 with cacheTime 100, exactly one
task is pending with deadline 102 and the invariant holds; the due task
fires at time 102, removing the query from the registry; a new
subscribe instead cancels the pending task; and with a subscriber held,
a fetch call leaves the query in the registry with nothing pending. -/
theorem gc_timer_discipline_witness :
    ((qAfterDrop.inRegistry = true →
        ((qAfterDrop.pendingGC ≠ []) ↔ qAfterDrop.emptiedSinceSub = true)) ∧
      (qAfterDrop.pendingGC ≠ [] → qAfterDrop.subscribers = []) ∧
      qAfterDrop.pendingGC.length ≤ 1) ∧
    (unsubscribe 3 2 qSubbed).pendingGC =
      [(qSubbed.nextTimer, 2 + qSubbed.cacheTime)] ∧
    (enabled (QEvent.fire 102 0) qAfterDrop = true ∧
      (stepEv (QEvent.fire 102 0) qAfterDrop).inRegistry = false) ∧
    (subscribe 4 qAfterDrop).pendingGC = [] ∧
    (qSubbedFetched.pendingGC = [] ∧
      qSubbedFetched.inRegistry = qSubbed.inRegistry) :=
  ⟨gc_timer_discipline.1 "k" 0 (some 100) 0
      [QEvent.sub 0 3, QEvent.unsub 2 3] qAfterDrop (by decide),
    gc_timer_discipline.2.2.1 "k" 0 (some 100) 0 [QEvent.sub 0 3] qSubbed 3 2
      (by decide) (by decide) (by decide),
    gc_timer_discipline.2.2.2.1 qAfterDrop 102 0 102 (by decide) (by decide),
    gc_timer_discipline.2.2.2.2.1 "k" 0 (some 100) 0
      [QEvent.sub 0 3, QEvent.unsub 2 3] qAfterDrop 4 (by decide),
    gc_timer_discipline.2.2.2.2.2 "k" 0 (some 100) 0 [QEvent.sub 0 3]
      [QEvent.fetchC] qSubbed qSubbedFetched (by decide) (by decide)
      (by decide) (by decide)⟩

end RQLite
